import Mathlib

/-!
Verification of the pdf-lib-annotate annotation engine.

Shallow embedding of the annotation geometry and interaction engine of the
pdf-lib-annotate Svelte application (src/unnamed/part_000, first page variant;
the second variant in the same file has identical store/selection logic).

Modelling conventions:
* JavaScript numbers are modelled as exact rationals (`ℚ`); every value
  appearing in the claims is exactly representable.
* The Svelte writable stores (`annotations`, `selectedAnnotationId`,
  `isDrawing`, `currentBox`, `currentPage`) are gathered into one record,
  `EditorState`; each event handler becomes a total function on that record.
* The nullable canvas 2D contexts (`pdfContext`, `drawingContext`,
  `annotationContext`) are set together by `renderPage` and reset together on
  failure, so their availability is modelled by a single flag `ctxOk`; every
  handler that early-returns on a null context checks it.
* JavaScript truthiness matters in two places and is modelled explicitly:
  `!$selectedAnnotationId` is true for both `null` and `0`
  (`handleKeyboardBoxControl`), and `box.name || ...` falls back on the empty
  string (`addFieldsAndDownload`).
-/

/-- The `AnnotationBox` record (src/types/canvas, as used throughout
part_000): id from `Date.now()`, canvas-space geometry, 1-based page, name. -/
structure AnnotationBox where
  id : Nat
  x : ℚ
  y : ℚ
  page : Nat
  width : ℚ
  height : ℚ
  name : String
deriving Repr, DecidableEq

/-- The editor's mutable state: the writable stores plus the drawing flags of
part_000 (lines 44-49) and the canvas-context availability flag. -/
structure EditorState where
  isDrawing : Bool
  currentBox : Option AnnotationBox
  annotations : List AnnotationBox
  selectedAnnotationId : Option Nat
  currentPage : Nat
  ctxOk : Bool
deriving Repr, DecidableEq

/-- Handler `startDrawingBox` (part_000 lines 190-210): on mousedown with live
contexts, record the drag origin in a fresh `currentBox` with zero extents;
`newId` stands for the `Date.now()` timestamp. -/
def startDrawingBox (s : EditorState) (newId : Nat) (x y : ℚ) : EditorState :=
  if !s.ctxOk then s
  else
    { s with
      isDrawing := true
      currentBox := some
        { id := newId, x := x, y := y, page := s.currentPage
          width := 0, height := 0, name := "" } }

/-- Handler `updateDrawingBox` (part_000 lines 212-238): on mousemove while dragging,
replace the current box's extents by the signed differences from the origin to
the pointer. -/
def updateDrawingBox (s : EditorState) (currentX currentY : ℚ) : EditorState :=
  if !s.isDrawing || !s.ctxOk then s
  else
    match s.currentBox with
    | none => s
    | some box =>
        { s with
          currentBox := some
            { box with width := currentX - box.x, height := currentY - box.y } }

/-- Handler `endDrawingBox` (part_000 lines 240-262): on mouseup/mouseout while
dragging, append the current box to the store iff both extents are non-zero
(lines 250-253), then leave the drawing state. No normalization is applied. -/
def endDrawingBox (s : EditorState) : EditorState :=
  if !s.isDrawing || s.currentBox.isNone || !s.ctxOk then s
  else
    let anns :=
      match s.currentBox with
      | some box =>
          if box.width ≠ 0 ∧ box.height ≠ 0 then s.annotations ++ [box]
          else s.annotations
      | none => s.annotations
    { s with annotations := anns, isDrawing := false, currentBox := none }

/-- The mousemove phase of a drag: fold `updateDrawingBox` over the pointer
positions observed between mousedown and mouseup. -/
def dragFold (s : EditorState) (moves : List (ℚ × ℚ)) : EditorState :=
  moves.foldl (fun st p => updateDrawingBox st p.1 p.2) s

/-- A complete drag gesture: mousedown at `start`, the mousemove positions in
`moves`, then mouseup (or mouseout, which is bound to the same
`endDrawingBox` handler, lines 147-148). -/
def runDrag (s : EditorState) (newId : Nat) (start : ℚ × ℚ)
    (moves : List (ℚ × ℚ)) : EditorState :=
  endDrawingBox (dragFold (startDrawingBox s newId start.1 start.2) moves)

/-- Function `removeAnnotation` (part_000 lines 303-307; identically lines 776-785 in
the second variant): filter the id out of the store and set the selection to
`null` unconditionally. -/
def removeAnnotation (s : EditorState) (id : Nat) : EditorState :=
  { s with
    annotations := s.annotations.filter (fun box => box.id != id)
    selectedAnnotationId := none }

/-- The four directional keys distinguished by `handleKeyboardBoxControl`'s
switch; every other key falls through the switch unchanged. -/
inductive Key where
  | arrowLeft | arrowRight | arrowUp | arrowDown | other
deriving Repr, DecidableEq

/-- The parts of a `KeyboardEvent` the handler reads. -/
structure KeyEvent where
  key : Key
  shiftKey : Bool
deriving Repr, DecidableEq

/-- The body of the switch statement in `handleKeyboardBoxControl`
(part_000 lines 278-291), applied to one box. -/
def applyKey (box : AnnotationBox) (e : KeyEvent) (moveAmount : ℚ) :
    AnnotationBox :=
  match e.key with
  | .arrowLeft => { box with x := box.x - moveAmount }
  | .arrowRight => { box with x := box.x + moveAmount }
  | .arrowUp => { box with y := box.y - moveAmount }
  | .arrowDown => { box with y := box.y + moveAmount }
  | .other => box

/-- Handler `handleKeyboardBoxControl` (part_000 lines 265-300). The JavaScript guard
`!$selectedAnnotationId` is falsy both when the selection is `null` and when
it is the number `0`, which the first two cases reproduce. The handler then
requires live contexts, requires the selected id to be found in the store, and
maps the arrow-key delta (`shiftKey ? 10 : 1`) over exactly the boxes whose id
equals the selection. -/
def handleKeyboardBoxControl (s : EditorState) (e : KeyEvent) : EditorState :=
  match s.selectedAnnotationId with
  | none => s
  | some selId =>
      if selId = 0 then s
      else if !s.ctxOk then s
      else if (s.annotations.find? (fun box => box.id == selId)).isNone then s
      else
        let moveAmount : ℚ := if e.shiftKey then 10 else 1
        { s with
          annotations := s.annotations.map (fun box =>
            if box.id == selId then applyKey box e moveAmount else box) }

/-- The canvas-pixel to PDF-point conversion used verbatim both by the
mousemove coordinate readout (part_000 lines 156-157) and by
`addFieldsAndDownload` (lines 346-347):
`pdfX = (canvasX / canvasW) * pdfW`, `pdfY = pdfH - (canvasY / canvasH) * pdfH`.
The source contains no branch on the canvas dimensions. In JavaScript a zero
canvas dimension makes the division yield a non-finite number that propagates;
Lean's total rational division instead returns 0 for the offending quotient,
so at `canvasW = canvasH = 0` this function returns `(0, pdfH)` — under either
semantics the result differs from `(0, 0)` whenever `pdfH ≠ 0`. -/
def toPdfSpace (canvasX canvasY canvasW canvasH pdfW pdfH : ℚ) : ℚ × ℚ :=
  ((canvasX / canvasW) * pdfW, pdfH - (canvasY / canvasH) * pdfH)

/-- A PDF-space placement rectangle as passed to `textField.addToPage`. -/
structure PdfRect where
  x : ℚ
  y : ℚ
  width : ℚ
  height : ℚ
deriving Repr, DecidableEq

/-- The per-box geometry computation of `addFieldsAndDownload`
(part_000 lines 341-362): convert the top-left corner with `toPdfSpace`'s
formulas, scale the extents, and anchor the field at
`y = pdfY - pdfBoxHeight` because PDF coordinates start from the bottom. -/
def boxToPdfRect (box : AnnotationBox) (canvasW canvasH pdfW pdfH : ℚ) :
    PdfRect :=
  let pdfX := (box.x / canvasW) * pdfW
  let pdfY := pdfH - (box.y / canvasH) * pdfH
  let pdfBoxWidth := (box.width / canvasW) * pdfW
  let pdfBoxHeight := (box.height / canvasH) * pdfH
  { x := pdfX, y := pdfY - pdfBoxHeight
    width := pdfBoxWidth, height := pdfBoxHeight }

/-- Line 339 of part_000, `const fieldName = box.name || ...`:
the empty string is falsy, so `||` substitutes the generated name exactly
when `box.name` is empty. -/
def fieldName (box : AnnotationBox) : String :=
  if box.name = "" then "Field_" ++ toString box.id else box.name

/-- The grouping loop of `addFieldsAndDownload` (part_000 lines 327-331):
`pageAnnotationMap` starts empty; each box in store order is appended to its
page's list, a fresh singleton list being created on first sight of a page.
The JavaScript object is modelled as an association list keyed by page
number. (`Object.entries` later enumerates integer-like keys in ascending
numeric order rather than insertion order; none of the properties proved
below depend on the relative order of the per-page batches.) -/
def pageMapStep (m : List (Nat × List AnnotationBox)) (box : AnnotationBox) :
    List (Nat × List AnnotationBox) :=
  if (m.find? (fun e => e.1 == box.page)).isSome then
    m.map (fun e => if e.1 == box.page then (e.1, e.2 ++ [box]) else e)
  else m ++ [(box.page, [box])]

/-- The full grouping loop: fold the loop body over the store in order,
starting from the empty object. -/
def buildPageMap (anns : List AnnotationBox) :
    List (Nat × List AnnotationBox) :=
  anns.foldl pageMapStep []

/-- A form-field placement request: the field name, the 1-based page number,
and the PDF-space rectangle handed to `addToPage`. -/
structure Placement where
  name : String
  page : Nat
  rect : PdfRect
deriving Repr, DecidableEq

/-- The environment of `addFieldsAndDownload`: whether a document is loaded
(`$pdfDocument`), the current canvas dimensions, each page's PDF-space size
(`page.getSize()`), and, for each externally-performed step, whether that
step throws. Each failure flag stands for a rejection of the corresponding
pdf-lib / pdfjs call. -/
structure ExportEnv where
  docLoaded : Bool
  canvasW : ℚ
  canvasH : ℚ
  pageSizes : Nat → ℚ × ℚ
  getDataFails : Bool
  loadFails : Bool
  getPageFails : Nat → Bool
  createFieldFails : String → Bool
  addToPageFails : String → Bool
  saveFails : Bool

/-- The fallible body of `addFieldsAndDownload`'s `try` block
(part_000 lines 319-373): get the original bytes, load them into pdf-lib,
then for each page group in turn fetch the page and its size and, for each
box in store order, derive the field name, compute the rectangle, create the
text field and place it; finally serialize. The first exception aborts the
rest of the body; the computed placements are returned on success. -/
def exportBody (env : ExportEnv) (anns : List AnnotationBox) :
    Except Unit (List Placement) := do
  if env.getDataFails then throw ()
  if env.loadFails then throw ()
  let placements ← (buildPageMap anns).foldlM
    (fun acc entry => do
      if env.getPageFails entry.1 then throw ()
      let sz := env.pageSizes entry.1
      entry.2.foldlM
        (fun acc2 box => do
          let name := fieldName box
          if env.createFieldFails name then throw ()
          let rect := boxToPdfRect box env.canvasW env.canvasH sz.1 sz.2
          if env.addToPageFails name then throw ()
          pure (acc2 ++ [{ name := name, page := entry.1, rect := rect }]))
        acc)
    ([] : List Placement)
  if env.saveFails then throw ()
  pure placements

/-- The externally observable outcome of one `addFieldsAndDownload` call:
whether `link.click()` downloaded a file (and with which placements), and how
many `alert` dialogs were shown. -/
structure ExportResult where
  downloaded : Option (List Placement)
  alerts : Nat
deriving Repr, DecidableEq

/-- Function `addFieldsAndDownload` (part_000 lines 317-379): inside the `try`, return
immediately when no document is loaded (line 319); otherwise run the body and
download the serialized file. The `catch` block handles any exception by
logging and showing a single alert; no file is downloaded in that case. The
annotation store is never written, so it is returned unchanged. -/
def addFieldsAndDownload (env : ExportEnv) (anns : List AnnotationBox) :
    ExportResult × List AnnotationBox :=
  if !env.docLoaded then ({ downloaded := none, alerts := 0 }, anns)
  else
    match exportBody env anns with
    | .ok placements => ({ downloaded := some placements, alerts := 0 }, anns)
    | .error _ => ({ downloaded := none, alerts := 1 }, anns)

/-- The nudge delta prescribed by the specification (section 4.4): written
from the spec's words, for comparison with the code-side `applyKey`.
Left/right affect x and up/down affect y by plus or minus the step, the step
being 10 with the shift-equivalent modifier held and 1 otherwise. -/
def specNudgeDelta (e : KeyEvent) : ℚ × ℚ :=
  let step : ℚ := if e.shiftKey then 10 else 1
  match e.key with
  | .arrowLeft => (-step, 0)
  | .arrowRight => (step, 0)
  | .arrowUp => (0, -step)
  | .arrowDown => (0, step)
  | .other => (0, 0)

/-- Invariant relating the accumulator of the grouping loop to the prefix of
the store already processed: keys are pairwise distinct, a key is present
exactly when some processed box references that page, and each key's list is
exactly the processed boxes of that page in store order. -/
def PageMapInv (m : List (Nat × List AnnotationBox))
    (anns : List AnnotationBox) : Prop :=
  ((m.map Prod.fst).Nodup) ∧
  (∀ p : Nat, (∃ l, (p, l) ∈ m) ↔ p ∈ anns.map AnnotationBox.page) ∧
  (∀ p l, (p, l) ∈ m → l = anns.filter (fun b => b.page == p))

/-- An idle editor state with live canvas contexts and an empty store, used
by the concrete instances below. -/
def exIdleState : EditorState :=
  { isDrawing := false, currentBox := none, annotations := [],
    selectedAnnotationId := none, currentPage := 1, ctxOk := true }

/-- A unit box with id `i` on page `p`, at position `(i, i)`. -/
def exBox (i p : Nat) : AnnotationBox :=
  { id := i, x := (i : ℚ), y := (i : ℚ), page := p,
    width := 1, height := 1, name := "" }

/-- A state holding two annotations, the one with id 1 selected. -/
def exTwoBoxState : EditorState :=
  { exIdleState with
    annotations := [exBox 1 1, exBox 2 1]
    selectedAnnotationId := some 1 }

/-- The concrete box of the spec's export scenario (section 8): canvas
top-left (90, 120), width 180, height 60, on page 1. -/
def exScenarioBox : AnnotationBox :=
  { id := 7, x := 90, y := 120, page := 1, width := 180, height := 60,
    name := "" }

/-- An export environment for the spec's concrete scenario: document loaded,
canvas 900 by 1200 (page 600 by 800 rendered at scale 1.5), and no external
call failing. -/
def exEnvOk : ExportEnv :=
  { docLoaded := true, canvasW := 900, canvasH := 1200
    pageSizes := fun _ => (600, 800)
    getDataFails := false, loadFails := false
    getPageFails := fun _ => false
    createFieldFails := fun _ => false
    addToPageFails := fun _ => false
    saveFails := false }

/-- The fresh `currentBox` that `startDrawingBox` creates at the drag
origin (part_000 lines 201-209). -/
def mkDragBox (newId page : Nat) (x y : ℚ) : AnnotationBox :=
  { id := newId, x := x, y := y, page := page, width := 0, height := 0,
    name := "" }

/-- The annotation record a drag from `(x0, y0)` ending at `(xe, ye)` leaves
in `currentBox`: origin fields as at mousedown, extents the signed
differences computed by the last `updateDrawingBox`. -/
def draggedBox (newId page : Nat) (x0 y0 xe ye : ℚ) : AnnotationBox :=
  { id := newId, x := x0, y := y0, page := page, width := xe - x0,
    height := ye - y0, name := "" }

theorem dragFold_nil (s : EditorState) : dragFold s [] = s := rfl

theorem dragFold_cons (s : EditorState) (p : ℚ × ℚ) (ms : List (ℚ × ℚ)) :
    dragFold s (p :: ms) = dragFold (updateDrawingBox s p.1 p.2) ms := rfl

theorem updateDrawingBox_dragging (s : EditorState) (box : AnnotationBox)
    (hd : s.isDrawing = true) (hc : s.ctxOk = true)
    (hb : s.currentBox = some box) (cx cy : ℚ) :
    updateDrawingBox s cx cy =
      { s with
        currentBox := some { box with width := cx - box.x, height := cy - box.y } } := by
  simp [updateDrawingBox, hd, hc, hb]

theorem dragFold_concat (ms : List (ℚ × ℚ)) :
    ∀ (s : EditorState) (box : AnnotationBox), s.isDrawing = true →
      s.ctxOk = true → s.currentBox = some box → ∀ p : ℚ × ℚ,
      dragFold s (ms ++ [p]) =
        { s with
          currentBox := some { box with width := p.1 - box.x, height := p.2 - box.y } } := by
  induction ms with
  | nil =>
      intro s box hd hc hb p
      rw [List.nil_append, dragFold_cons,
        updateDrawingBox_dragging s box hd hc hb, dragFold_nil]
  | cons m rest ih =>
      intro s box hd hc hb p
      rw [List.cons_append, dragFold_cons,
        updateDrawingBox_dragging s box hd hc hb]
      exact ih
        { s with
          currentBox := some { box with width := m.1 - box.x, height := m.2 - box.y } }
        { box with width := m.1 - box.x, height := m.2 - box.y }
        hd hc rfl p


theorem startDrawingBox_eq (s : EditorState) (newId : Nat) (x0 y0 : ℚ)
    (hc : s.ctxOk = true) :
    startDrawingBox s newId x0 y0 =
      { s with
        isDrawing := true
        currentBox := some (mkDragBox newId s.currentPage x0 y0) } := by
  simp [startDrawingBox, hc, mkDragBox]

theorem dragFold_start_concat (s : EditorState) (newId : Nat) (x0 y0 : ℚ)
    (hc : s.ctxOk = true) (ms : List (ℚ × ℚ)) (p : ℚ × ℚ) :
    dragFold (startDrawingBox s newId x0 y0) (ms ++ [p]) =
      { s with
        isDrawing := true
        currentBox := some (draggedBox newId s.currentPage x0 y0 p.1 p.2) } := by
  rw [startDrawingBox_eq s newId x0 y0 hc]
  exact dragFold_concat ms
    { s with
      isDrawing := true
      currentBox := some (mkDragBox newId s.currentPage x0 y0) }
    (mkDragBox newId s.currentPage x0 y0) rfl hc rfl p

/-- C1, counterexample to the claim as stated: with live contexts, an up-left
drag from (10, 10) to (5, 5) ends with non-zero extents, and the annotation
committed to the store has width 5 - 10 = -5 < 0, height -5 < 0, and origin
x = 10 ≠ 5, the dragged rectangle's true top-left being (5, 5):
`endDrawingBox` commits `currentBox` verbatim, with no normalization. -/
theorem upLeft_drag_commits_negative_extents :
    (runDrag exIdleState 42 (10, 10) ([] ++ [(5, 5)])).annotations =
      [draggedBox 42 1 10 10 5 5] ∧
    (draggedBox 42 1 10 10 5 5).width < 0 ∧
    (draggedBox 42 1 10 10 5 5).height < 0 ∧
    (draggedBox 42 1 10 10 5 5).x ≠ 5 := by
  have hw' : (5 : ℚ) - 10 ≠ 0 := by norm_num
  refine ⟨?_, by norm_num [draggedBox], by norm_num [draggedBox],
    by norm_num [draggedBox]⟩
  unfold runDrag
  rw [dragFold_start_concat exIdleState 42 10 10 rfl [] (5, 5)]
  simp [endDrawingBox, exIdleState, draggedBox, hw']

/-- C1 (amended): for every drag sequence that ends with non-zero signed
extents, exactly one annotation is committed to the store; its (x, y) origin
is the pointer-down point (not necessarily the top-left corner) and its
width/height are the signed differences from the origin to the final pointer
position, so up/left drags store negative extents. No normalization happens
at commit. -/
theorem drag_commits_signed_extents (s : EditorState) (newId : Nat)
    (x0 y0 : ℚ) (ms : List (ℚ × ℚ)) (xe ye : ℚ) (hc : s.ctxOk = true)
    (hw : xe ≠ x0) (hh : ye ≠ y0) :
    (runDrag s newId (x0, y0) (ms ++ [(xe, ye)])).annotations =
      s.annotations ++ [draggedBox newId s.currentPage x0 y0 xe ye] := by
  have hw' : xe - x0 ≠ 0 := sub_ne_zero.mpr hw
  have hh' : ye - y0 ≠ 0 := sub_ne_zero.mpr hh
  unfold runDrag
  rw [dragFold_start_concat s newId x0 y0 hc ms (xe, ye)]
  simp [endDrawingBox, hc, draggedBox, hw', hh']

/-- Closed witness for the amended C1 theorem at a concrete down-right drag. -/
theorem drag_commits_signed_extents_witness :
    (runDrag exIdleState 99 (10, 10) ([] ++ [(25, 30)])).annotations =
      exIdleState.annotations ++ [draggedBox 99 exIdleState.currentPage 10 10 25 30] :=
  drag_commits_signed_extents exIdleState 99 10 10 [] 25 30 rfl
    (by norm_num) (by norm_num)

/-- C3: a drag whose final pointer position coincides with the origin in x or
in y — in particular a click with no mousemove at all — ends with zero width
or zero height, so `endDrawingBox` commits nothing: the store is exactly as
before and the transient drawing state is discarded. All handlers are total
functions, so the drag is dropped silently with no error. -/
theorem zero_extent_drag_commits_nothing (s : EditorState) (newId : Nat)
    (x0 y0 : ℚ) (moves : List (ℚ × ℚ)) (hc : s.ctxOk = true)
    (hz : ∀ p : ℚ × ℚ, moves.getLast? = some p → p.1 = x0 ∨ p.2 = y0) :
    (runDrag s newId (x0, y0) moves).annotations = s.annotations ∧
    (runDrag s newId (x0, y0) moves).isDrawing = false ∧
    (runDrag s newId (x0, y0) moves).currentBox = none := by
  rcases List.eq_nil_or_concat moves with rfl | ⟨L, b, rfl⟩
  · unfold runDrag
    rw [dragFold_nil, startDrawingBox_eq s newId x0 y0 hc]
    refine ⟨?_, ?_, ?_⟩ <;> simp [endDrawingBox, hc, mkDragBox]
  · have hlast : b.1 = x0 ∨ b.2 = y0 := hz b (by simp)
    unfold runDrag
    rw [List.concat_eq_append, dragFold_start_concat s newId x0 y0 hc L b]
    have hcond : ¬(b.1 - x0 ≠ (0 : ℚ) ∧ b.2 - y0 ≠ (0 : ℚ)) := by
      rcases hlast with h | h
      · exact fun hco => hco.1 (by rw [h, sub_self])
      · exact fun hco => hco.2 (by rw [h, sub_self])
    refine ⟨?_, ?_, ?_⟩ <;> simp [endDrawingBox, hc, draggedBox, hcond]

/-- Closed witness for the C3 theorem: a horizontal drag ending back at the
starting height (zero height) commits nothing. -/
theorem zero_extent_drag_commits_nothing_witness :
    (runDrag exIdleState 7 (3, 4) [(9, 4)]).annotations =
      exIdleState.annotations ∧
    (runDrag exIdleState 7 (3, 4) [(9, 4)]).isDrawing = false ∧
    (runDrag exIdleState 7 (3, 4) [(9, 4)]).currentBox = none :=
  zero_extent_drag_commits_nothing exIdleState 7 3 4 [(9, 4)] rfl
    (by
      intro p hp
      have h : ((9 : ℚ), (4 : ℚ)) = p := by simpa using hp
      exact Or.inr (by rw [← h]))

/-- C2, counterexample to the claim as stated: in a store holding boxes with
ids 1 and 2 where id 1 is selected, removing the non-selected id 2 does not
leave the selection unchanged — `removeAnnotation` sets the selection to
`null` unconditionally (part_000 line 305). -/
theorem remove_nonselected_clears_selection :
    exTwoBoxState.selectedAnnotationId = some 1 ∧
    exBox 2 1 ∈ exTwoBoxState.annotations ∧
    (exBox 2 1).id = 2 ∧
    (2 : Nat) ≠ 1 ∧
    ( removeAnnotation exTwoBoxState 2).selectedAnnotationId ≠ some 1 := by
  refine ⟨rfl, ?_, rfl, by norm_num, ?_⟩
  · simp [exTwoBoxState, exIdleState]
  · simp [ removeAnnotation]

/-- C2 (amended): removing an annotation by id keeps exactly the stored boxes
whose id differs from the removed one (membership preserved in both
directions) and clears the selection to `null` unconditionally — whether or
not the removed id was the selected one. -/
theorem removeAnnotation_spec (s : EditorState) (id : Nat) :
    ( removeAnnotation s id).selectedAnnotationId = none ∧
    ∀ b : AnnotationBox,
      (b ∈ ( removeAnnotation s id).annotations ↔
        b ∈ s.annotations ∧ b.id ≠ id) := by
  refine ⟨rfl, fun b => ?_⟩
  simp [ removeAnnotation, List.mem_filter]

/-- C7: the exported form-field identifier is the annotation's name verbatim
when the name is non-empty, and the generated `Field_{id}` string when the
name is empty. -/
theorem fieldName_spec (box : AnnotationBox) :
    (box.name ≠ "" → fieldName box = box.name) ∧
    (box.name = "" → fieldName box = "Field_" ++ toString box.id) := by
  constructor
  · intro h; simp [fieldName, h]
  · intro h; simp [fieldName, h]

/-- Closed witness for the C7 theorem: an annotation named "Name" exports as
field "Name", and an empty-named annotation with id 12345 exports as
field "Field_12345". -/
theorem fieldName_spec_witness :
    fieldName { exScenarioBox with name := "Name" } = "Name" ∧
    fieldName { exScenarioBox with id := 12345 } = "Field_12345" := by
  constructor
  · exact (fieldName_spec { exScenarioBox with name := "Name" }).1 (by decide)
  · exact (fieldName_spec { exScenarioBox with id := 12345 }).2 rfl

/-- C9, counterexample to the claim as stated: the conversion contains no
guard on the canvas dimensions. At canvas size 0 × 0 the formula is applied
anyway, and converting canvas point (90, 120) on a 600 × 800 page does not
give (0, 0) (it gives (0, 800) under the embedding's total division, and
non-finite coordinates under JavaScript division-by-zero semantics); nor is
any "no active page" value signalled — the function unconditionally returns
a plain pair. -/
theorem zero_canvas_conversion_not_guarded :
    toPdfSpace 90 120 0 0 600 800 ≠ (0, 0) := by
  norm_num [toPdfSpace, Prod.ext_iff]

/-- C9 (amended): the conversion is unguarded; when the canvas dimensions
are zero it still applies its formula, yielding (0, pdfH) under the
embedding's total division (non-finite values in JavaScript) — not (0, 0)
for any page of non-zero height, and never a "no active page" signal. -/
theorem toPdfSpace_zero_canvas (cx cy W H : ℚ) :
    toPdfSpace cx cy 0 0 W H = (0, H) := by
  simp [toPdfSpace]

/-- C10: triggering export with no document loaded returns immediately
(part_000 line 319): no file is downloaded, no alert is surfaced, and the
annotation store is unchanged. -/
theorem export_no_document_noop (env : ExportEnv) (anns : List AnnotationBox)
    (h : env.docLoaded = false) :
    addFieldsAndDownload env anns =
      ({ downloaded := none, alerts := 0 }, anns) := by
  simp [addFieldsAndDownload, h]

/-- Closed witness for the C10 theorem. -/
theorem export_no_document_noop_witness :
    addFieldsAndDownload { exEnvOk with docLoaded := false } [exScenarioBox] =
      ({ downloaded := none, alerts := 0 }, [exScenarioBox]) :=
  export_no_document_noop { exEnvOk with docLoaded := false } [exScenarioBox]
    rfl

/-- C8: whenever the body of the export throws — at getData, pdf-lib load,
page lookup, field creation, field placement, or save — the surrounding
try/catch aborts the whole export: no file (in particular no partial file) is
downloaded, exactly one alert is surfaced, and the annotation store is left
unchanged. -/
theorem export_failure_aborts (env : ExportEnv) (anns : List AnnotationBox)
    (hdoc : env.docLoaded = true) (hfail : exportBody env anns = .error ()) :
    (addFieldsAndDownload env anns).1.downloaded = none ∧
    (addFieldsAndDownload env anns).1.alerts = 1 ∧
    (addFieldsAndDownload env anns).2 = anns := by
  refine ⟨?_, ?_, ?_⟩ <;> simp [addFieldsAndDownload, hdoc, hfail]

/-- Closed witness for the C8 theorem: serialization failing as the last step
still suppresses the download, with a single alert and the store intact. -/
theorem export_failure_aborts_witness :
    (addFieldsAndDownload { exEnvOk with saveFails := true }
      [exScenarioBox]).1.downloaded = none ∧
    (addFieldsAndDownload { exEnvOk with saveFails := true }
      [exScenarioBox]).1.alerts = 1 ∧
    (addFieldsAndDownload { exEnvOk with saveFails := true }
      [exScenarioBox]).2 = [exScenarioBox] :=
  export_failure_aborts { exEnvOk with saveFails := true } [exScenarioBox]
    rfl rfl

/-- C5: the export geometry. First conjunct, the general formulas: for every
box and every canvas/page size the placed rectangle has
x = box.x / canvasW * W, width = box.width / canvasW * W,
height = box.height / canvasH * H and
y = (H - box.y / canvasH * H) - (box.height / canvasH * H). Second conjunct,
the spec's concrete scenario through the whole export pipeline: a 600 × 800
page at scale 1.5 (canvas 900 × 1200) and a box with canvas top-left
(90, 120), width 180, height 60 downloads as one field placement with
rectangle x = 60, y = 680, width = 120, height = 40. -/
theorem export_rect_formula :
    (∀ (box : AnnotationBox) (cw ch W H : ℚ),
      boxToPdfRect box cw ch W H =
        { x := box.x / cw * W
          y := (H - box.y / ch * H) - box.height / ch * H
          width := box.width / cw * W
          height := box.height / ch * H }) ∧
    (addFieldsAndDownload exEnvOk [exScenarioBox]).1.downloaded =
      some [{ name := "Field_7", page := 1,
              rect := { x := 60, y := 680, width := 120, height := 40 } }] := by
  constructor
  · intro box cw ch W H
    rfl
  · have hrect : boxToPdfRect exScenarioBox 900 1200 600 800 =
        { x := 60, y := 680, width := 120, height := 40 } := by
      norm_num [boxToPdfRect, exScenarioBox]
    have hname : fieldName exScenarioBox = "Field_7" := rfl
    have hdl : (addFieldsAndDownload exEnvOk [exScenarioBox]).1.downloaded =
        some [{ name := fieldName exScenarioBox, page := 1,
                rect := boxToPdfRect exScenarioBox 900 1200 600 800 }] := rfl
    rw [hdl, hname, hrect]

/-- C4: keyboard nudging. First conjunct: with no selection the handler is a
no-op on the whole editor state. Second conjunct: when the selected id is a
non-zero `i`, contexts are live and a box with id `i` is present in the
store, a directional key updates the store by adding the spec's nudge delta
(left/right on x, up/down on y, by 1, or 10 with the shift modifier — one
coordinate only) to exactly the boxes bearing the selected id, leaving every
other box and the selection unchanged. The non-zero proviso reflects the
JavaScript falsy guard `!$selectedAnnotationId`; ids are `Date.now()`
timestamps, never 0. -/
theorem nudge_spec :
    (∀ (s : EditorState) (e : KeyEvent),
      s.selectedAnnotationId = none → handleKeyboardBoxControl s e = s) ∧
    (∀ (s : EditorState) (e : KeyEvent) (i : Nat),
      s.selectedAnnotationId = some i → i ≠ 0 → s.ctxOk = true →
      (∃ b ∈ s.annotations, b.id = i) → e.key ≠ Key.other →
      (handleKeyboardBoxControl s e).annotations =
        s.annotations.map (fun b =>
          if b.id = i then
            { b with
              x := b.x + (specNudgeDelta e).1
              y := b.y + (specNudgeDelta e).2 }
          else b) ∧
      (handleKeyboardBoxControl s e).selectedAnnotationId =
        s.selectedAnnotationId) := by
  constructor
  · intro s e h
    simp [handleKeyboardBoxControl, h]
  · rintro s e i hsel hi hctx ⟨b0, hb0, hid⟩ hkey
    have hsome : (s.annotations.find? (fun box => box.id == i)).isSome := by
      exact List.find?_isSome.mpr ⟨b0, hb0, by simp [hid]⟩
    obtain ⟨v, hv⟩ := Option.isSome_iff_exists.mp hsome
    have hfun : (fun box : AnnotationBox =>
        if box.id == i then
          applyKey box e (if e.shiftKey then (10 : ℚ) else 1) else box) =
        (fun b : AnnotationBox =>
          if b.id = i then
            { b with
              x := b.x + (specNudgeDelta e).1
              y := b.y + (specNudgeDelta e).2 }
          else b) := by
      funext b
      by_cases hb : b.id = i
      · rcases e with ⟨key, shift⟩
        cases key <;>
          first
          | exact absurd rfl hkey
          | (cases shift <;>
              simp [hb, applyKey, specNudgeDelta, sub_eq_add_neg])
      · simp [hb]
    constructor
    · show (handleKeyboardBoxControl s e).annotations = _
      simp only [handleKeyboardBoxControl, hsel, hi, hctx, hv, if_false,
        Bool.not_true, Option.isNone_some, Bool.false_eq_true, if_neg]
      rw [hfun]
    · simp [handleKeyboardBoxControl, hsel, hi, hctx, hv]

/-- Closed witness for the C4 theorem: no selection is a no-op, and with the
box of id 1 selected a plain left-arrow press applies the delta (-1, 0) to
exactly that box. -/
theorem nudge_spec_witness :
    handleKeyboardBoxControl exIdleState
      { key := Key.arrowLeft, shiftKey := false } = exIdleState ∧
    (handleKeyboardBoxControl exTwoBoxState
        { key := Key.arrowLeft, shiftKey := false }).annotations =
      exTwoBoxState.annotations.map (fun b =>
        if b.id = 1 then
          { b with
            x := b.x +
              (specNudgeDelta { key := Key.arrowLeft, shiftKey := false }).1
            y := b.y +
              (specNudgeDelta { key := Key.arrowLeft, shiftKey := false }).2 }
        else b) ∧
    (handleKeyboardBoxControl exTwoBoxState
        { key := Key.arrowLeft, shiftKey := false }).selectedAnnotationId =
      exTwoBoxState.selectedAnnotationId := by
  refine ⟨nudge_spec.1 exIdleState _ rfl, ?_⟩
  exact nudge_spec.2 exTwoBoxState { key := Key.arrowLeft, shiftKey := false }
    1 rfl (by norm_num) rfl
    ⟨exBox 1 1, by simp [exTwoBoxState, exIdleState], rfl⟩ (by decide)

theorem pageMapStep_inv (m : List (Nat × List AnnotationBox))
    (anns : List AnnotationBox) (box : AnnotationBox)
    (h : PageMapInv m anns) : PageMapInv (pageMapStep m box) (anns ++ [box]) := by
  obtain ⟨hnd, hmem, hcont⟩ := h
  by_cases hf : (m.find? (fun e => e.1 == box.page)).isSome
  · obtain ⟨e0, he0⟩ := Option.isSome_iff_exists.mp hf
    have he0m : e0 ∈ m := List.mem_of_find?_eq_some he0
    have he0p : e0.1 = box.page := by simpa using List.find?_some he0
    have hpage : box.page ∈ anns.map AnnotationBox.page := by
      refine (hmem box.page).mp ⟨e0.2, ?_⟩
      rw [← he0p]
      exact Prod.mk.eta ▸ he0m
    have hstep : pageMapStep m box =
        m.map (fun e => if e.1 == box.page then (e.1, e.2 ++ [box]) else e) := by
      simp [pageMapStep, hf]
    have hfst : ∀ e : Nat × List AnnotationBox,
        ((fun e : Nat × List AnnotationBox =>
          if e.1 == box.page then (e.1, e.2 ++ [box]) else e) e).1 = e.1 := by
      intro e
      by_cases hc : e.1 == box.page <;> simp [hc]
    refine ⟨?_, ?_, ?_⟩
    · rw [hstep, List.map_map]
      have hcomp : (Prod.fst ∘ fun e : Nat × List AnnotationBox =>
          if e.1 == box.page then (e.1, e.2 ++ [box]) else e) =
          (Prod.fst : Nat × List AnnotationBox → Nat) := by
        funext e
        exact hfst e
      rw [hcomp]
      exact hnd
    · intro p
      rw [hstep]
      constructor
      · rintro ⟨l, hl⟩
        obtain ⟨e, hem, hfe⟩ := List.mem_map.mp hl
        have hep : e.1 = p := by
          rw [← hfst e]
          exact congrArg Prod.fst hfe
        have hin : p ∈ anns.map AnnotationBox.page := by
          refine (hmem p).mp ⟨e.2, ?_⟩
          rw [← hep]
          exact Prod.mk.eta ▸ hem
        simp [hin]
      · intro hp
        have hp' : p ∈ anns.map AnnotationBox.page := by
          rcases (by simpa using hp :
              p ∈ anns.map AnnotationBox.page ∨ p = box.page) with h | h
          · exact h
          · exact h ▸ hpage
        obtain ⟨l, hlm⟩ := (hmem p).mpr hp'
        refine ⟨((fun e : Nat × List AnnotationBox =>
          if e.1 == box.page then (e.1, e.2 ++ [box]) else e) (p, l)).2, ?_⟩
        have h2 : (p, ((fun e : Nat × List AnnotationBox =>
            if e.1 == box.page then (e.1, e.2 ++ [box]) else e) (p, l)).2) =
            (fun e : Nat × List AnnotationBox =>
              if e.1 == box.page then (e.1, e.2 ++ [box]) else e) (p, l) := by
          rw [Prod.ext_iff]
          exact ⟨(hfst (p, l)).symm, rfl⟩
        rw [h2]
        exact List.mem_map_of_mem _ hlm
    · intro p l hl
      rw [hstep] at hl
      obtain ⟨e, hem, hfe⟩ := List.mem_map.mp hl
      have hecont : e.2 = anns.filter (fun b => b.page == e.1) :=
        hcont e.1 e.2 (Prod.mk.eta ▸ hem)
      by_cases hpb : e.1 == box.page
      · have hfe' : (e.1, e.2 ++ [box]) = (p, l) := by
          rw [← hfe]
          simp [hpb]
        obtain ⟨hp1, hl1⟩ := Prod.mk.injEq .. ▸ hfe'
        have hbp : box.page = p := by
          rw [← hp1]
          exact (beq_iff_eq.mp hpb).symm
        rw [← hl1, hecont, hp1, List.filter_append]
        have hbox : [box].filter (fun b => b.page == p) = [box] := by
          simp [List.filter_cons, hbp]
        rw [hbox]
      · have hfe' : e = (p, l) := by
          rw [← hfe]
          simp [hpb]
        have hp1 : e.1 = p := by rw [hfe']
        have hl1 : e.2 = l := by rw [hfe']
        have hbp : box.page ≠ p := by
          intro hbpp
          exact hpb (by simp [hp1, hbpp])
        rw [← hl1, hecont, hp1, List.filter_append]
        have hbox : [box].filter (fun b => b.page == p) = [] := by
          simp [List.filter_cons, hbp]
        rw [hbox, List.append_nil]
  · have hnone : m.find? (fun e => e.1 == box.page) = none :=
      Option.not_isSome_iff_eq_none.mp hf
    have hall : ∀ e ∈ m, ¬(e.1 == box.page) := List.find?_eq_none.mp hnone
    have hnotin : box.page ∉ anns.map AnnotationBox.page := by
      intro hin
      obtain ⟨l, hlm⟩ := (hmem box.page).mpr hin
      exact hall (box.page, l) hlm (by simp)
    have hstep : pageMapStep m box = m ++ [(box.page, [box])] := by
      simp [pageMapStep, hf]
    have hkeys : box.page ∉ m.map Prod.fst := by
      intro hin
      obtain ⟨e, hem, hee⟩ := List.mem_map.mp hin
      exact hall e hem (by simp [hee])
    refine ⟨?_, ?_, ?_⟩
    · rw [hstep, List.map_append, List.nodup_append]
      refine ⟨hnd, by simp, ?_⟩
      intro a ham hax
      have : a = box.page := by simpa using hax
      exact hkeys (this ▸ ham)
    · intro p
      rw [hstep]
      constructor
      · rintro ⟨l, hl⟩
        rcases List.mem_append.mp hl with h | h
        · have := (hmem p).mp ⟨l, h⟩
          simp [this]
        · have hpl : (p, l) = (box.page, [box]) := by simpa using h
          have hp : p = box.page := by
            have := congrArg Prod.fst hpl
            simpa using this
          simp [hp]
      · intro hp
        rcases (by simpa using hp :
            p ∈ anns.map AnnotationBox.page ∨ p = box.page) with h | h
        · obtain ⟨l, hlm⟩ := (hmem p).mpr h
          exact ⟨l, List.mem_append.mpr (Or.inl hlm)⟩
        · exact ⟨[box], by simp [h]⟩
    · intro p l hl
      rw [hstep] at hl
      rcases List.mem_append.mp hl with h | h
      · have hpe := hcont p l h
        have hbp : box.page ≠ p := by
          intro hbpp
          exact hall (p, l) h (by simp [hbpp])
        rw [hpe, List.filter_append]
        have hbox : [box].filter (fun b => b.page == p) = [] := by
          simp [List.filter_cons, hbp]
        rw [hbox, List.append_nil]
      · have hpl : (p, l) = (box.page, [box]) := by simpa using h
        have hp : p = box.page := by
          have := congrArg Prod.fst hpl
          simpa using this
        have hlb : l = [box] := by
          have := congrArg Prod.snd hpl
          simpa using this
        have hfilter : anns.filter (fun b => b.page == p) = [] := by
          rw [List.filter_eq_nil_iff]
          intro b hbm hbp
          refine hnotin ?_
          rw [← hp, ← beq_iff_eq.mp hbp]
          exact List.mem_map_of_mem _ hbm
        rw [hlb, List.filter_append, hfilter, List.nil_append]
        simp [List.filter_cons, hp]

theorem pageMap_foldl_inv (anns : List AnnotationBox) :
    ∀ (m : List (Nat × List AnnotationBox)) (anns₀ : List AnnotationBox),
      PageMapInv m anns₀ →
      PageMapInv (anns.foldl pageMapStep m) (anns₀ ++ anns) := by
  induction anns with
  | nil =>
      intro m anns₀ h
      simpa using h
  | cons a t ih =>
      intro m anns₀ h
      have h2 := ih (pageMapStep m a) (anns₀ ++ [a]) (pageMapStep_inv m anns₀ a h)
      simpa [List.append_assoc] using h2

/-- C6: the export grouping loop partitions the store by page: the batch keys
are pairwise distinct (one batch per distinct referenced page), a page has a
batch exactly when some stored annotation references it, and each page's
batch is exactly the store's annotations of that page, in original insertion
order. -/
theorem buildPageMap_partitions (anns : List AnnotationBox) :
    ((buildPageMap anns).map Prod.fst).Nodup ∧
    (∀ p : Nat, (∃ l, (p, l) ∈ buildPageMap anns) ↔
      p ∈ anns.map AnnotationBox.page) ∧
    (∀ (p : Nat) (l : List AnnotationBox), (p, l) ∈ buildPageMap anns →
      l = anns.filter (fun b => b.page == p)) := by
  have h0 : PageMapInv [] [] := by
    refine ⟨List.nodup_nil, fun p => ?_, fun p l h => absurd h (List.not_mem_nil _)⟩
    simp
  have h := pageMap_foldl_inv anns [] [] h0
  simpa [buildPageMap, PageMapInv] using h

/-- Closed witness for the C6 theorem on a store with annotations on pages 1
and 3: page 1's batch is exactly its two annotations in insertion order. -/
theorem buildPageMap_partitions_witness :
    [exBox 10 1, exBox 11 3, exBox 12 1].filter
      (fun b => b.page == 1) = [exBox 10 1, exBox 12 1] :=
  ((buildPageMap_partitions [exBox 10 1, exBox 11 3, exBox 12 1]).2.2 1
    [exBox 10 1, exBox 12 1]
    (by simp [buildPageMap, pageMapStep, exBox])).symm
